import Mathlib

/-!
Verification of the automcp adapter toolkit core.

This file embeds, in Lean, the parts of the repository that the claims
C1–C10 are about:

* `src/automcp/adapters/utils.py` — `ensure_serializable`, the recursive
  result normalizer (modelled by `ensure_serializable` on the value type
  `PyVal`, and by a heap-instrumented variant `ensureH` used for the
  no-mutation claim);
* `src/automcp/adapters/langchain.py` — signature projection and the
  generated `run_tool` wrapper (parameter list, structured input
  construction, stdout redirection, exception propagation);
* `src/automcp/adapters/crewai.py` — `create_crewai_tool_adapter`
  (construction-time classification of the `_run` attribute) and
  `create_crewai_agent_adapter` (unguarded `annotation.__name__`);
* `src/automcp/adapters/mcp_agent.py` — `run_agent` (no stdout
  redirection, error-report policy);
* `src/auto_mcp/adapters/openai_adapter.py` — `convert_to_mcp_tool`
  (candidate-method classification, per-call instantiation).
-/

/-! ## Python values

A `PyVal` models a Python runtime value at the granularity
`ensure_serializable` distinguishes: the basic JSON types checked by
`isinstance(obj, (dict, list, str, int, float, bool, type(None)))`,
tuples (which that check does NOT include), and arbitrary objects with
the attribute capabilities the fallback chain probes (`to_dict`,
`model_dump`, `__dict__`, `results`).  Floats are carried opaquely as
their literal text, since the code never computes with them.  Values are
inductive, hence finite and acyclic — cyclic object graphs (flagged in
the source's design notes as a latent unbounded recursion) are outside
the model. -/

mutual

inductive PyVal : Type where
| none : PyVal
| bool (b : Bool) : PyVal
| int (n : Int) : PyVal
| float (lit : String) : PyVal
| str (s : String) : PyVal
| list (xs : PyList) : PyVal
| tuple (xs : PyList) : PyVal
| dict (kvs : PyKVs) : PyVal
| obj (o : PyObj) : PyVal
deriving DecidableEq

inductive PyList : Type where
| nil : PyList
| cons (x : PyVal) (xs : PyList) : PyList
deriving DecidableEq

inductive PyKVs : Type where
| nil : PyKVs
| cons (k : String) (v : PyVal) (rest : PyKVs) : PyKVs
deriving DecidableEq

/-- An attribute that `ensure_serializable` would call
(`to_dict` / `model_dump`).  `hasattr` is false for `absent`;
`callable(...)` is false for `notCallable`; a present callable attribute
either raises when called (`raises`) or returns a value (`returns`). -/
inductive PyCap : Type where
| absent : PyCap
| notCallable : PyCap
| raises : PyCap
| returns (v : PyVal) : PyCap
deriving DecidableEq

/-- The `__dict__` attribute: absent (e.g. `__slots__` classes, tuples)
or an attribute mapping. -/
inductive PyDictAttr : Type where
| absent : PyDictAttr
| present (kvs : PyKVs) : PyDictAttr
deriving DecidableEq

/-- The `results` attribute: absent, or present with a value. -/
inductive PyResultsAttr : Type where
| absent : PyResultsAttr
| present (v : PyVal) : PyResultsAttr
deriving DecidableEq

/-- A non-basic Python object as `ensure_serializable` observes it:
its `str()` text and the four probed capabilities. -/
inductive PyObj : Type where
| mk (strRepr : String) (toDict : PyCap) (modelDump : PyCap)
    (dictAttr : PyDictAttr) (resultsAttr : PyResultsAttr) : PyObj
deriving DecidableEq

end

/-- `str.startswith('_')` on an attribute name. -/
def startsWithUnderscore (s : String) : Bool :=
  match s.data with
  | [] => false
  | c :: _ => c == '_'

/-- The filtered attribute mapping
`{k: v for k, v in obj.__dict__.items() if not k.startswith('_')}`. -/
def filterUnderscore : PyKVs → PyKVs
  | .nil => .nil
  | .cons k v rest =>
    if startsWithUnderscore k then filterUnderscore rest
    else .cons k v (filterUnderscore rest)

mutual

/-- Python `str()` / `repr()` of a value, for the value forms of this
embedding (needed because the fallback chain returns `str(obj)`, and a
tuple reaching the fallback becomes its textual representation).
Containers render their elements with `repr`; strings are quoted;
escape sequences inside strings are not modelled. -/
def pyRepr : PyVal → String
  | .none => "None"
  | .bool b => if b then "True" else "False"
  | .int n => toString n
  | .float lit => lit
  | .str s => "'" ++ s ++ "'"
  | .list xs => "[" ++ pyReprList xs ++ "]"
  | .tuple .nil => "()"
  | .tuple (.cons x .nil) => "(" ++ pyRepr x ++ ",)"
  | .tuple (.cons x (.cons y ys)) =>
    "(" ++ pyRepr x ++ ", " ++ pyReprList (.cons y ys) ++ ")"
  | .dict kvs => "\x7b" ++ pyReprKVs kvs ++ "\x7d"
  | .obj (.mk strRepr _ _ _ _) => strRepr

def pyReprList : PyList → String
  | .nil => ""
  | .cons x .nil => pyRepr x
  | .cons x xs => pyRepr x ++ ", " ++ pyReprList xs

def pyReprKVs : PyKVs → String
  | .nil => ""
  | .cons k v .nil => "'" ++ k ++ "': " ++ pyRepr v
  | .cons k v rest => "'" ++ k ++ "': " ++ pyRepr v ++ ", " ++ pyReprKVs rest

end

mutual

/-- `ensure_serializable` from `src/automcp/adapters/utils.py`.

```python
def ensure_serializable(obj):
    if isinstance(obj, (dict, list, str, int, float, bool, type(None))):
        if isinstance(obj, dict):
            return {k: ensure_serializable(v) for k, v in obj.items()}
        elif isinstance(obj, list):
            return [ensure_serializable(item) for item in obj]
        return obj
    try:
        if hasattr(obj, "to_dict") and callable(obj.to_dict):
            return ensure_serializable(obj.to_dict())
        elif hasattr(obj, "model_dump") and callable(obj.model_dump):
            return ensure_serializable(obj.model_dump())
        elif hasattr(obj, "__dict__"):
            return ensure_serializable({k: v for k, v in obj.__dict__.items()
                                        if not k.startswith('_')})
        elif hasattr(obj, "results"):
            results = obj.results
            if isinstance(results, list):
                return [ensure_serializable(item) for item in results]
            else:
                return ensure_serializable(results)
    except Exception:
        return str(obj)
    return str(obj)
```

A tuple is not in the `isinstance` tuple, has no `to_dict`,
`model_dump`, `__dict__` or `results`, so it reaches the final
`return str(obj)`. -/
def ensure_serializable : PyVal → PyVal
  | .none => .none
  | .bool b => .bool b
  | .int n => .int n
  | .float lit => .float lit
  | .str s => .str s
  | .dict kvs => .dict (ensureKVs kvs)
  | .list xs => .list (ensureList xs)
  | .tuple xs => .str (pyRepr (.tuple xs))
  | .obj o => ensureObj o

def ensureList : PyList → PyList
  | .nil => .nil
  | .cons x xs => .cons (ensure_serializable x) (ensureList xs)

def ensureKVs : PyKVs → PyKVs
  | .nil => .nil
  | .cons k v rest => .cons k (ensure_serializable v) (ensureKVs rest)

/-- The `__dict__` branch
`ensure_serializable({k: v for k, v in obj.__dict__.items() if not k.startswith('_')})`
in one structurally recursive pass: filter out underscore keys and
normalize the kept values.  `ensureFilteredKVs_eq` below proves this
equal to the source's composition
`ensureKVs (filterUnderscore kvs)`, i.e. to
`ensure_serializable (.dict (filterUnderscore kvs))`. -/
def ensureFilteredKVs : PyKVs → PyKVs
  | .nil => .nil
  | .cons k v rest =>
    if startsWithUnderscore k then ensureFilteredKVs rest
    else .cons k (ensure_serializable v) (ensureFilteredKVs rest)

def ensureObj : PyObj → PyVal
  | .mk _ (.returns v) _ _ _ => ensure_serializable v
  | .mk strRepr .raises _ _ _ => .str strRepr
  | .mk _ _ (.returns v) _ _ => ensure_serializable v
  | .mk strRepr _ .raises _ _ => .str strRepr
  | .mk _ _ _ (.present kvs) _ => .dict (ensureFilteredKVs kvs)
  | .mk _ _ _ .absent (.present (.list xs)) => .list (ensureList xs)
  | .mk _ _ _ .absent (.present r) => ensure_serializable r
  | .mk strRepr _ _ .absent .absent => .str strRepr

end

/-- `toDict`/`modelDump` capabilities for which
`hasattr(obj, m) and callable(getattr(obj, m))` is false, so the `elif`
chain moves on. -/
def PyCap.noCall : PyCap → Bool
  | .absent => true
  | .notCallable => true
  | .raises => false
  | .returns _ => false

/-- `isinstance(results, list)` for the `results` branch. -/
def PyVal.isList : PyVal → Bool
  | .list _ => true
  | .none => false
  | .bool _ => false
  | .int _ => false
  | .float _ => false
  | .str _ => false
  | .tuple _ => false
  | .dict _ => false
  | .obj _ => false

mutual

/-- A value already in the JSON-safe shape of the claim: null, boolean,
number, string, or a list/dict built recursively from JSON-safe values.
Tuples and objects are not JSON-safe. -/
def jsonSafe : PyVal → Bool
  | .none => true
  | .bool _ => true
  | .int _ => true
  | .float _ => true
  | .str _ => true
  | .list xs => jsonSafeList xs
  | .tuple _ => false
  | .dict kvs => jsonSafeKVs kvs
  | .obj _ => false

def jsonSafeList : PyList → Bool
  | .nil => true
  | .cons x xs => jsonSafe x && jsonSafeList xs

def jsonSafeKVs : PyKVs → Bool
  | .nil => true
  | .cons _ v rest => jsonSafe v && jsonSafeKVs rest

end

/-- Length of an embedded Python list. -/
def PyList.length : PyList → Nat
  | .nil => 0
  | .cons _ xs => xs.length + 1

/-- Index access on an embedded Python list. -/
def PyList.get? : PyList → Nat → Option PyVal
  | .nil, _ => Option.none
  | .cons x _, 0 => some x
  | .cons _ xs, n + 1 => xs.get? n

/-- Whether a value is a sequence (a Python `list` or `tuple`). -/
def PyVal.isSeq : PyVal → Bool
  | .list _ => true
  | .tuple _ => true
  | .none => false
  | .bool _ => false
  | .int _ => false
  | .float _ => false
  | .str _ => false
  | .dict _ => false
  | .obj _ => false

/-- A concrete JSON-safe value used by witnesses. -/
def sampleSafeVal : PyVal :=
  .dict (.cons "a" (.list (.cons (.int 1) (.cons (.str "x") .nil)))
    (.cons "b" (.bool true) .nil))

/-- A concrete non-safe value used by witnesses (an object whose
`to_dict` returns a dict containing a tuple). -/
def sampleObjVal : PyVal :=
  .obj (.mk "<Obj>" (.returns (.dict (.cons "t" (.tuple (.cons (.int 1) .nil)) .nil)))
    .absent .absent .absent)

/-! ## Signature projection and structured input construction

Every adapter derives the generated wrapper's parameter list from
`input_schema.model_fields`, an ordered mapping from field name to field
info; a field's projected annotation is `annotation.__name__`, guarded by
`hasattr(annotation, '__name__')` in most adapters and unguarded in
`create_crewai_agent_adapter` / `create_crewai_orchestrator_adapter`. -/

/-- A pydantic field as the projection reads it: the `__name__` of its
declared annotation when the annotation has one. -/
structure FieldInfo where
  annotationName : Option String
deriving DecidableEq

/-- `input_schema.model_fields`: field name to field info, in declaration
order. -/
abbrev InputSchema := List (String × FieldInfo)

/-- Python exceptions at the granularity the adapters distinguish. -/
inductive PyExc where
  | runtimeError (msg : String)
  | valueError (msg : String)
  | attributeError (msg : String)
  | typeError (msg : String)
  | cancelledError
  | other (ty msg : String)
deriving DecidableEq

/-- `str(e)`: the exception's message text. -/
def PyExc.msg : PyExc → String
  | .runtimeError m => m
  | .valueError m => m
  | .attributeError m => m
  | .typeError m => m
  | .cancelledError => ""
  | .other _ m => m

/-- The guarded parameter projection
`f"{field_name}: {field_info.annotation.__name__ if hasattr(field_info.annotation, '__name__') else 'Any'}"`
joined over `schema_fields.items()` (langchain.py line 34, crewai.py
line 162, langgraph.py line 29, openai.py line 25, and the auto_mcp
openai adapter line 33). -/
def paramsStrGuarded (schema : InputSchema) : List (String × String) :=
  schema.map (fun p =>
    (p.1, match p.2.annotationName with
          | some n => n
          | Option.none => "Any"))

/-- The unguarded parameter projection
`f"{field_name}: {field_info.annotation.__name__}"` of
`create_crewai_agent_adapter` (crewai.py line 35) and
`create_crewai_orchestrator_adapter` (line 109): a field whose annotation
has no `__name__` raises `AttributeError` while the join consumes the
generator, so construction fails. -/
def paramsStrUnguarded : InputSchema → Except PyExc (List (String × String))
  | [] => .ok []
  | p :: rest =>
    match p.2.annotationName with
    | some n => (paramsStrUnguarded rest).map (fun ps => (p.1, n) :: ps)
    | Option.none => .error (.attributeError "type object has no attribute __name__")

/-- `input_data = input_schema(f1=f1, ..., fn=fn)` followed by
`input_dict = input_data.model_dump()`: the structured input instance
binds every schema field, in declaration order, to the caller's
same-named argument. -/
def buildInputInstance (schema : InputSchema) (args : String → PyVal) :
    List (String × PyVal) :=
  schema.map (fun p => (p.1, args p.1))

/-- Calling the generated wrapper positionally: Python binds the i-th
positional value to the i-th parameter, and the parameter list is the
schema's fields in order. -/
def buildInputPositional (schema : InputSchema) (vals : List PyVal) :
    List (String × PyVal) :=
  (schema.map Prod.fst).zip vals

/-! ## Standard streams and the redirect scope

`contextlib.redirect_stdout(io.StringIO())` swaps `sys.stdout` for a
fresh buffer on entry and restores the previous stream on every exit,
normal or raising; `sys.stderr` is untouched.  The state is explicit: a
flag saying whether stdout currently points at the capture buffer, the
real streams' contents, and the buffer's contents.  An exception is
carried as data (`Except`), which models the context manager restoring
the stream before the exception propagates. -/

structure Streams where
  redirected : Bool
  realOut : List String
  realErr : List String
  buffer : List String
deriving DecidableEq

/-- A write to `sys.stdout`: lands in the capture buffer while a
redirect scope is active, on the real stream otherwise. -/
def writeOut (st : Streams) (s : String) : Streams :=
  if st.redirected then { st with buffer := st.buffer ++ [s] }
  else { st with realOut := st.realOut ++ [s] }

/-- A write to `sys.stderr`: never redirected by these adapters. -/
def writeErr (st : Streams) (s : String) : Streams :=
  { st with realErr := st.realErr ++ [s] }

/-- What one invocation of the wrapped target does: its stdout writes,
its stderr writes, and its outcome (a value or a raised exception). -/
structure TargetBehavior where
  outWrites : List String
  errWrites : List String
  outcome : Except PyExc PyVal

/-- Running the target once: its writes hit the streams, its outcome is
returned. -/
def runTarget (t : TargetBehavior) (st : Streams) :
    Streams × Except PyExc PyVal :=
  let st1 := t.outWrites.foldl writeOut st
  let st2 := t.errWrites.foldl writeErr st1
  (st2, t.outcome)

/-- `with contextlib.redirect_stdout(io.StringIO()): result = ...`:
save the current stdout target, point stdout at a fresh buffer, run the
call, restore stdout (on the normal and the raising path alike), and
hand the outcome through unchanged. -/
def redirectScopedCall (t : TargetBehavior) (st : Streams) :
    Streams × Except PyExc PyVal :=
  let saved := st.redirected
  let stIn : Streams := { st with redirected := true, buffer := [] }
  let (stRun, r) := runTarget t stIn
  ({ stRun with redirected := saved }, r)

/-- The generated `run_tool` of `create_langchain_tool_adapter`
(langchain.py lines 65-76): build the structured input instance from the
parameters, `model_dump` it, resolve the run method, call it inside a
`redirect_stdout` scope, and return the raw result (no result
normalization and no exception handler, so a target exception
propagates unchanged). -/
def run_tool (schema : InputSchema)
    (target : List (String × PyVal) → TargetBehavior)
    (args : String → PyVal) (st : Streams) :
    Streams × Except PyExc PyVal :=
  redirectScopedCall (target (buildInputInstance schema args)) st

/-- The generated `run_tool` of `create_crewai_tool_adapter` (crewai.py
lines 184-196): same shape, but the raw result is passed through
`ensure_serializable` inside the scope before being returned. -/
def crewai_run_tool (schema : InputSchema)
    (target : List (String × PyVal) → TargetBehavior)
    (args : String → PyVal) (st : Streams) :
    Streams × Except PyExc PyVal :=
  let (st1, r) := redirectScopedCall (target (buildInputInstance schema args)) st
  (st1, r.map ensure_serializable)

/-- The structured error payload `{"status": "error", "message": str(e)}`
returned by `run_agent` in mcp_agent.py line 61. -/
def errorPayload (e : PyExc) : PyVal :=
  .dict (.cons "status" (.str "error") (.cons "message" (.str e.msg) .nil))

/-- `run_agent` from `create_mcp_agent_adapter` (mcp_agent.py lines
20-61): builds the input instance, runs the agent task with NO stdout
redirection, awaits the future; a `CancelledError` cancels the task and
re-raises, any other exception is printed to stderr
(`traceback.print_exc()`) and converted into the structured error
payload. -/
def mcp_run_agent (schema : InputSchema)
    (agentTask : List (String × PyVal) → TargetBehavior)
    (kwargs : String → PyVal) (st : Streams) :
    Streams × Except PyExc PyVal :=
  let (st1, r) := runTarget (agentTask (buildInputInstance schema kwargs)) st
  match r with
  | .ok v => (st1, .ok v)
  | .error .cancelledError => (st1, .error .cancelledError)
  | .error e => (writeErr st1 "Traceback (most recent call last):", .ok (errorPayload e))

/-! ## Target classification (auto_mcp openai adapter, crewai tool adapter)

`OpenAIAdapter.convert_to_mcp_tool` (openai_adapter.py lines 38-60)
classifies the wrapped object once, at construction: a class is probed
for the candidate methods `run, arun, chat, achat, invoke, ainvoke` in
that order (`hasattr`, then `callable`; a present but non-callable
attribute lets the loop continue); a plain function/method is used
directly; anything else raises `ValueError`.  The async flag is read
from the selected method with `inspect.iscoroutinefunction` once and
frozen into the generated body. -/

/-- A class attribute as the classifier observes it. -/
structure MethodInfo where
  callableAttr : Bool
  isCoroutine : Bool
deriving DecidableEq

/-- A Python class: its attribute table (name to method info). -/
structure PyClass where
  methods : List (String × MethodInfo)
deriving DecidableEq

/-- The ordered candidate list of openai_adapter.py line 47. -/
def candidateMethods : List String :=
  ["run", "arun", "chat", "achat", "invoke", "ainvoke"]

/-- `hasattr(framework_obj, m) and callable(getattr(framework_obj, m))`. -/
def exposesCallable (c : PyClass) (m : String) : Bool :=
  ((c.methods.lookup m).map (fun info => info.callableAttr)).getD false

/-- The candidate loop of openai_adapter.py lines 47-53: first candidate
that is present and callable wins; the selected name and its coroutine
flag are returned. -/
def findMethod (c : PyClass) : List String → Option (String × Bool)
  | [] => Option.none
  | m :: rest =>
    match c.methods.lookup m with
    | some info =>
      if info.callableAttr then some (m, info.isCoroutine)
      else findMethod c rest
    | Option.none => findMethod c rest

/-- The wrapped object, as `inspect.isclass` / `inspect.isfunction or
inspect.ismethod` classify it: a class, a plain function or bound method
(with its coroutine flag), or anything else (which may or may not be
Python-callable through `__call__`, but is not a function). -/
inductive FrameworkObj where
  | cls (c : PyClass)
  | func (isCoroutine : Bool)
  | other (selfCallable : Bool)
deriving DecidableEq

/-- Whether the object itself is directly callable in Python (classes and
functions are; an `other` object only if it defines `__call__`). -/
def FrameworkObj.pythonCallable : FrameworkObj → Bool
  | .cls _ => true
  | .func _ => true
  | .other b => b

/-- Whether the object exposes none of the expected candidate methods
(probing applies only to classes; functions and other objects are never
probed by this adapter). -/
def FrameworkObj.hasNoCandidate : FrameworkObj → Bool
  | .cls c => (findMethod c candidateMethods).isNone
  | .func _ => true
  | .other _ => true

/-- The frozen classification carried in the generated wrapper's
closure. -/
inductive WrapperKind where
  | classMethod (m : String) (isAsync : Bool)
  | bareCallable (isAsync : Bool)
deriving DecidableEq

/-- `OpenAIAdapter.convert_to_mcp_tool`, classification part
(openai_adapter.py lines 38-60): returns the frozen wrapper kind or
raises `ValueError` at construction time. -/
def convert_to_mcp_tool : FrameworkObj → Except PyExc WrapperKind
  | .cls c =>
    match findMethod c candidateMethods with
    | some (m, a) => .ok (.classMethod m a)
    | Option.none => .error (.valueError
        "Class must have one of: run, arun, chat, achat, invoke, or ainvoke methods")
  | .func isCoro => .ok (.bareCallable isCoro)
  | .other _ => .error (.valueError "Unsupported framework object type")

/-- Events the constructors and the generated wrappers perform, used to
state that construction never invokes the target and that each call of
the class-case wrapper instantiates the class exactly once. -/
inductive Ev where
  | hasattrCheck (nm : String)
  | getattrAccess (nm : String)
  | callableCheck (nm : String)
  | coroutineCheck (nm : String)
  | instantiate
  | invokeTarget
deriving DecidableEq

/-- The probe events of the candidate loop, in execution order. -/
def probeEvents (c : PyClass) : List String → List Ev
  | [] => []
  | m :: rest =>
    match c.methods.lookup m with
    | some info =>
      if info.callableAttr then
        [.hasattrCheck m, .getattrAccess m, .callableCheck m, .coroutineCheck m]
      else
        [.hasattrCheck m, .getattrAccess m, .callableCheck m] ++ probeEvents c rest
    | Option.none => .hasattrCheck m :: probeEvents c rest

/-- Everything `convert_to_mcp_tool` does to the target while
constructing the wrapper: reflection only, never an invocation. -/
def openaiCtorEvents : FrameworkObj → List Ev
  | .cls c => probeEvents c candidateMethods
  | .func _ => [.coroutineCheck "framework_obj"]
  | .other _ => []

/-- One call of the generated `openai_tool` in the class case
(openai_adapter.py lines 67-85): `agent_instance = framework_obj()` — a
fresh instance per call — then the frozen method is resolved on it and
invoked. -/
def openai_tool_callEvents (m : String) : List Ev :=
  [Ev.instantiate, Ev.getattrAccess m, Ev.invokeTarget]

/-- The events of `n` successive calls of the generated `openai_tool`:
the class is instantiated inside each call, never cached across calls. -/
def openaiCallsEvents (m : String) : Nat → List Ev
  | 0 => []
  | n + 1 => openai_tool_callEvents m ++ openaiCallsEvents m n

/-! ## crewai tool adapter construction (crewai.py lines 161-217)

`create_crewai_tool_adapter` checks, at construction time only, that the
tool instance has a callable `_run` attribute: a missing `_run` or a
non-callable `_run` raises `ValueError` and no wrapper is produced.  The
check never invokes the target.  The generated wrapper resolves `_run`
again at call time (it exists, since construction checked) and calls it;
only target-raised exceptions can surface from a call. -/

/-- The `_run` attribute of a crewai tool instance. -/
inductive AttrState where
  | absent
  | notCallable
  | callableM (isAsync : Bool)
deriving DecidableEq

/-- A crewai tool instance: its `_run` attribute and, when `_run` is
callable, what calling it with given kwargs does. -/
structure CrewaiToolInstance where
  runAttr : AttrState
  behavior : List (String × PyVal) → TargetBehavior

/-- `create_crewai_tool_adapter` (crewai.py lines 167-177): the
classification outcome (the frozen async flag on success, `ValueError`
otherwise) paired with the events construction performs on the target. -/
def create_crewai_tool_adapter (t : CrewaiToolInstance) :
    Except PyExc Bool × List Ev :=
  match t.runAttr with
  | .absent =>
    (.error (.valueError "Class must have a _run method"), [.hasattrCheck "_run"])
  | .notCallable =>
    (.error (.valueError "Attribute _run of class must be callable"),
     [.hasattrCheck "_run", .getattrAccess "_run", .callableCheck "_run"])
  | .callableM isAsync =>
    (.ok isAsync,
     [.hasattrCheck "_run", .getattrAccess "_run", .callableCheck "_run",
      .coroutineCheck "_run"])

/-- A call of the crewai wrapper: `run_func = getattr(tool_instance,
'_run')` then `run_func(**input_dict)` inside the redirect scope with
`ensure_serializable` applied.  (The `getattr`/call would fail only if
`_run` were missing or not callable, which construction has excluded.) -/
def crewai_wrapper_call (t : CrewaiToolInstance) (schema : InputSchema)
    (args : String → PyVal) (st : Streams) :
    Streams × Except PyExc PyVal :=
  match t.runAttr with
  | .absent => (st, .error (.attributeError "_run"))
  | .notCallable => (st, .error (.typeError "_run object is not callable"))
  | .callableM _ => crewai_run_tool schema t.behavior args st

/-! ## Heap-instrumented normalizer (for the no-mutation property)

`PyVal` is a pure tree, so it cannot express "the returned container is
a new object and the argument was not mutated".  This second embedding
of `ensure_serializable` makes Python's object identity explicit:
containers and objects live in a heap (a list of cells, addresses are
indices), values are immediates or references, and the dict/list
comprehensions of the source allocate fresh cells at the end of the
heap.  The source mutates nothing, so the embedding only reads existing
cells and appends new ones; the theorems below prove exactly that.
Recursion is fuel-bounded because a heap, unlike an inductive value, can
contain reference cycles — the unbounded recursion the source's design
notes flag; exhausted fuel returns `Option.none` (Python's
`RecursionError`). -/

/-- An immediate Python value or a reference into the heap. -/
inductive HVal where
  | none
  | bool (b : Bool)
  | int (n : Int)
  | float (lit : String)
  | str (s : String)
  | ref (a : Nat)
deriving DecidableEq

/-- A `to_dict`/`model_dump` capability in the heap model. -/
inductive HCap where
  | absent
  | notCallable
  | raises
  | returns (v : HVal)
deriving DecidableEq

/-- A heap cell: a list, a dict, or a non-basic object with its probed
capabilities (`str()` text, `to_dict`, `model_dump`, `__dict__`,
`results`). -/
inductive HCell where
  | listC (xs : List HVal)
  | dictC (kvs : List (String × HVal))
  | objC (strRepr : String) (toDict : HCap) (modelDump : HCap)
      (dictAttr : Option (List (String × HVal)))
      (resultsAttr : Option HVal)
deriving DecidableEq

abbrev Heap := List HCell

/-- Whether a cell is one of the containers the claim quantifies over
(a Python `dict` or `list`). -/
def HCell.isContainer : HCell → Bool
  | .listC _ => true
  | .dictC _ => true
  | .objC _ _ _ _ _ => false

/-- `{k: v for k, v in kvs if not k.startswith('_')}` on heap dict
entries. -/
def filterUnderscoreH : List (String × HVal) → List (String × HVal)
  | [] => []
  | (k, v) :: rest =>
    if startsWithUnderscore k then filterUnderscoreH rest
    else (k, v) :: filterUnderscoreH rest

mutual

/-- `ensure_serializable` over the heap: basic values return as-is; a
reference to a list/dict normalizes the elements (reading the heap,
never writing existing cells) and allocates the comprehension's new
container at the end of the heap; a reference to an object walks the
same capability chain as the pure embedding, allocating the `__dict__`
branch's fresh filtered dict before recursing on it.  The fuel argument
decreases at every recursive call, so running out of fuel (`Option.none`)
over-approximates Python's `RecursionError`; any sufficiently large fuel
gives the source's behaviour on a cycle-free heap. -/
def ensureH : Nat → Heap → HVal → Option (Heap × HVal)
  | 0, _, _ => Option.none
  | _ + 1, h, .none => some (h, .none)
  | _ + 1, h, .bool b => some (h, .bool b)
  | _ + 1, h, .int n => some (h, .int n)
  | _ + 1, h, .float lit => some (h, .float lit)
  | _ + 1, h, .str s => some (h, .str s)
  | fuel + 1, h, .ref a =>
    match h[a]? with
    | some (.listC xs) =>
      match ensureHVals fuel h xs with
      | some (h1, ys) => some (h1 ++ [.listC ys], .ref h1.length)
      | Option.none => Option.none
    | some (.dictC kvs) =>
      match ensureHKVs fuel h kvs with
      | some (h1, kvs1) => some (h1 ++ [.dictC kvs1], .ref h1.length)
      | Option.none => Option.none
    | some (.objC sr toDict modelDump dictAttr resultsAttr) =>
      match toDict with
      | .returns v => ensureH fuel h v
      | .raises => some (h, .str sr)
      | _ =>
        match modelDump with
        | .returns v => ensureH fuel h v
        | .raises => some (h, .str sr)
        | _ =>
          match dictAttr with
          | some kvs =>
            ensureH fuel (h ++ [.dictC (filterUnderscoreH kvs)]) (.ref h.length)
          | Option.none =>
            match resultsAttr with
            | some r =>
              match r with
              | .ref a2 =>
                match h[a2]? with
                | some (.listC xs) =>
                  match ensureHVals fuel h xs with
                  | some (h1, ys) => some (h1 ++ [.listC ys], .ref h1.length)
                  | Option.none => Option.none
                | _ => ensureH fuel h r
              | _ => ensureH fuel h r
            | Option.none => some (h, .str sr)
    | Option.none => Option.none

def ensureHVals : Nat → Heap → List HVal → Option (Heap × List HVal)
  | _, h, [] => some (h, [])
  | 0, _, _ :: _ => Option.none
  | fuel + 1, h, x :: xs =>
    match ensureH fuel h x with
    | some (h1, y) =>
      match ensureHVals fuel h1 xs with
      | some (h2, ys) => some (h2, y :: ys)
      | Option.none => Option.none
    | Option.none => Option.none

def ensureHKVs : Nat → Heap → List (String × HVal) →
    Option (Heap × List (String × HVal))
  | _, h, [] => some (h, [])
  | 0, _, _ :: _ => Option.none
  | fuel + 1, h, (k, v) :: rest =>
    match ensureH fuel h v with
    | some (h1, w) =>
      match ensureHKVs fuel h1 rest with
      | some (h2, rest1) => some (h2, (k, w) :: rest1)
      | Option.none => Option.none
    | Option.none => Option.none

end

/-- Concrete schema `{a: string, b: int}` from the claim. -/
def exampleSchema : InputSchema := [("a", ⟨some "str"⟩), ("b", ⟨some "int"⟩)]

/-- Keyword arguments `a="x", b=1`. -/
def exampleArgs : String → PyVal :=
  fun nm => if nm = "a" then .str "x" else if nm = "b" then .int 1 else .none

/-- Concrete schema `{query: string}`. -/
def querySchema : InputSchema := [("query", ⟨some "str"⟩)]

/-- A target that prints to stdout and returns None. -/
def noisyTarget : TargetBehavior := ⟨["oops"], [], .ok .none⟩

/-- A target that raises `RuntimeError("boom")`. -/
def boomTarget : TargetBehavior := ⟨[], [], .error (.runtimeError "boom")⟩

/-- Streams before a call: nothing written, stdout not redirected. -/
def startStreams : Streams := ⟨false, [], [], []⟩

/-- The class from the claim's scenario: only a coroutine `arun`. -/
def sampleArunClass : PyClass := ⟨[("arun", ⟨true, true⟩)]⟩

/-- A crewai tool instance without `_run`. -/
def sampleAbsentTool : CrewaiToolInstance := ⟨.absent, fun _ => ⟨[], [], .ok .none⟩⟩

/-- A crewai tool instance whose `_run` raises `RuntimeError("boom")`. -/
def sampleBoomTool : CrewaiToolInstance :=
  ⟨.callableM false, fun _ => ⟨[], [], .error (.runtimeError "boom")⟩⟩

/-- A concrete two-cell heap: a dict at address 0 whose value is the
list at address 1. -/
def sampleHeap : Heap :=
  [HCell.dictC [("k", HVal.ref 1)], HCell.listC [HVal.int 3]]

/-- `ensureFilteredKVs` equals the source's composition of filtering and
normalizing, so `ensureObj`'s `__dict__` arm produces exactly
`ensure_serializable` of the filtered attribute dict. -/
theorem ensureFilteredKVs_eq : (kvs : PyKVs) →
    ensureFilteredKVs kvs = ensureKVs (filterUnderscore kvs)
  | .nil => rfl
  | .cons k v rest => by
    have ih := ensureFilteredKVs_eq rest
    simp only [ensureFilteredKVs, filterUnderscore]
    split
    · exact ih
    · simp only [ensureKVs, ih]

theorem ensureObj_toDict_returns (sr : String) (md : PyCap) (da : PyDictAttr)
    (ra : PyResultsAttr) (v : PyVal) :
    ensureObj (.mk sr (.returns v) md da ra) = ensure_serializable v := by
  cases md <;> cases da <;>
    (cases ra with
     | absent => rfl
     | present r => cases r <;> rfl)

theorem ensureObj_toDict_raises (sr : String) (md : PyCap) (da : PyDictAttr)
    (ra : PyResultsAttr) :
    ensureObj (.mk sr .raises md da ra) = .str sr := by
  cases md <;> cases da <;>
    (cases ra with
     | absent => rfl
     | present r => cases r <;> rfl)

theorem ensureObj_modelDump_returns (sr : String) (td : PyCap) (da : PyDictAttr)
    (ra : PyResultsAttr) (v : PyVal) (h : td.noCall = true) :
    ensureObj (.mk sr td (.returns v) da ra) = ensure_serializable v := by
  cases td with
  | raises => simp [PyCap.noCall] at h
  | returns w => simp [PyCap.noCall] at h
  | absent =>
    cases da <;>
      (cases ra with
       | absent => rfl
       | present r => cases r <;> rfl)
  | notCallable =>
    cases da <;>
      (cases ra with
       | absent => rfl
       | present r => cases r <;> rfl)

theorem ensureObj_modelDump_raises (sr : String) (td : PyCap) (da : PyDictAttr)
    (ra : PyResultsAttr) (h : td.noCall = true) :
    ensureObj (.mk sr td .raises da ra) = .str sr := by
  cases td with
  | raises => simp [PyCap.noCall] at h
  | returns w => simp [PyCap.noCall] at h
  | absent =>
    cases da <;>
      (cases ra with
       | absent => rfl
       | present r => cases r <;> rfl)
  | notCallable =>
    cases da <;>
      (cases ra with
       | absent => rfl
       | present r => cases r <;> rfl)

theorem ensureObj_dictAttr (sr : String) (td md : PyCap) (ra : PyResultsAttr)
    (kvs : PyKVs) (h1 : td.noCall = true) (h2 : md.noCall = true) :
    ensureObj (.mk sr td md (.present kvs) ra) = .dict (ensureFilteredKVs kvs) := by
  cases td with
  | raises => simp [PyCap.noCall] at h1
  | returns w => simp [PyCap.noCall] at h1
  | absent =>
    cases md with
    | raises => simp [PyCap.noCall] at h2
    | returns w => simp [PyCap.noCall] at h2
    | absent =>
      cases ra with
      | absent => rfl
      | present r => cases r <;> rfl
    | notCallable =>
      cases ra with
      | absent => rfl
      | present r => cases r <;> rfl
  | notCallable =>
    cases md with
    | raises => simp [PyCap.noCall] at h2
    | returns w => simp [PyCap.noCall] at h2
    | absent =>
      cases ra with
      | absent => rfl
      | present r => cases r <;> rfl
    | notCallable =>
      cases ra with
      | absent => rfl
      | present r => cases r <;> rfl

theorem ensureObj_results_list (sr : String) (td md : PyCap) (xs : PyList)
    (h1 : td.noCall = true) (h2 : md.noCall = true) :
    ensureObj (.mk sr td md .absent (.present (.list xs))) = .list (ensureList xs) := by
  cases td with
  | raises => simp [PyCap.noCall] at h1
  | returns w => simp [PyCap.noCall] at h1
  | absent =>
    cases md with
    | raises => simp [PyCap.noCall] at h2
    | returns w => simp [PyCap.noCall] at h2
    | absent => rfl
    | notCallable => rfl
  | notCallable =>
    cases md with
    | raises => simp [PyCap.noCall] at h2
    | returns w => simp [PyCap.noCall] at h2
    | absent => rfl
    | notCallable => rfl

theorem ensureObj_results_scalar (sr : String) (td md : PyCap) (r : PyVal)
    (h1 : td.noCall = true) (h2 : md.noCall = true) (h3 : r.isList = false) :
    ensureObj (.mk sr td md .absent (.present r)) = ensure_serializable r := by
  cases td with
  | raises => simp [PyCap.noCall] at h1
  | returns w => simp [PyCap.noCall] at h1
  | absent =>
    cases md with
    | raises => simp [PyCap.noCall] at h2
    | returns w => simp [PyCap.noCall] at h2
    | absent => cases r <;> rfl
    | notCallable => cases r <;> rfl
  | notCallable =>
    cases md with
    | raises => simp [PyCap.noCall] at h2
    | returns w => simp [PyCap.noCall] at h2
    | absent => cases r <;> rfl
    | notCallable => cases r <;> rfl

theorem ensureObj_fallback (sr : String) (td md : PyCap)
    (h1 : td.noCall = true) (h2 : md.noCall = true) :
    ensureObj (.mk sr td md .absent .absent) = .str sr := by
  cases td with
  | raises => simp [PyCap.noCall] at h1
  | returns w => simp [PyCap.noCall] at h1
  | absent =>
    cases md with
    | raises => simp [PyCap.noCall] at h2
    | returns w => simp [PyCap.noCall] at h2
    | absent => rfl
    | notCallable => rfl
  | notCallable =>
    cases md with
    | raises => simp [PyCap.noCall] at h2
    | returns w => simp [PyCap.noCall] at h2
    | absent => rfl
    | notCallable => rfl

mutual

/-- On values that are already JSON-safe, `ensure_serializable` is the
identity: the `isinstance` branch returns basic values as-is and rebuilds
dicts/lists from recursively identical parts. -/
theorem ensure_id_of_safe : (v : PyVal) → jsonSafe v = true → ensure_serializable v = v
  | .none, _ => rfl
  | .bool _, _ => rfl
  | .int _, _ => rfl
  | .float _, _ => rfl
  | .str _, _ => rfl
  | .list xs, h => by
    simp only [jsonSafe] at h
    simp only [ensure_serializable, ensureList_id_of_safe xs h]
  | .tuple _, h => by simp [jsonSafe] at h
  | .dict kvs, h => by
    simp only [jsonSafe] at h
    simp only [ensure_serializable, ensureKVs_id_of_safe kvs h]
  | .obj _, h => by simp [jsonSafe] at h

theorem ensureList_id_of_safe : (xs : PyList) → jsonSafeList xs = true → ensureList xs = xs
  | .nil, _ => rfl
  | .cons x xs, h => by
    simp only [jsonSafeList, Bool.and_eq_true] at h
    simp only [ensureList, ensure_id_of_safe x h.1, ensureList_id_of_safe xs h.2]

theorem ensureKVs_id_of_safe : (kvs : PyKVs) → jsonSafeKVs kvs = true → ensureKVs kvs = kvs
  | .nil, _ => rfl
  | .cons k v rest, h => by
    simp only [jsonSafeKVs, Bool.and_eq_true] at h
    simp only [ensureKVs, ensure_id_of_safe v h.1, ensureKVs_id_of_safe rest h.2]

end

mutual

/-- Every output of `ensure_serializable` is JSON-safe: the container
branches rebuild containers from normalized parts, and every extraction
branch of the object fallback chain either recurses or produces a
string. -/
theorem ensure_safe : (v : PyVal) → jsonSafe (ensure_serializable v) = true
  | .none => rfl
  | .bool _ => rfl
  | .int _ => rfl
  | .float _ => rfl
  | .str _ => rfl
  | .list xs => by
    simp only [ensure_serializable, jsonSafe]
    exact ensureList_safe xs
  | .tuple _ => rfl
  | .dict kvs => by
    simp only [ensure_serializable, jsonSafe]
    exact ensureKVs_safe kvs
  | .obj o => by
    simp only [ensure_serializable]
    exact ensureObj_safe o

theorem ensureList_safe : (xs : PyList) → jsonSafeList (ensureList xs) = true
  | .nil => rfl
  | .cons x xs => by
    simp only [ensureList, jsonSafeList, Bool.and_eq_true]
    exact ⟨ensure_safe x, ensureList_safe xs⟩

theorem ensureKVs_safe : (kvs : PyKVs) → jsonSafeKVs (ensureKVs kvs) = true
  | .nil => rfl
  | .cons _ v rest => by
    simp only [ensureKVs, jsonSafeKVs, Bool.and_eq_true]
    exact ⟨ensure_safe v, ensureKVs_safe rest⟩

theorem ensureFilteredKVs_safe : (kvs : PyKVs) → jsonSafeKVs (ensureFilteredKVs kvs) = true
  | .nil => rfl
  | .cons k v rest => by
    simp only [ensureFilteredKVs]
    split
    · exact ensureFilteredKVs_safe rest
    · simp only [jsonSafeKVs, Bool.and_eq_true]
      exact ⟨ensure_safe v, ensureFilteredKVs_safe rest⟩

theorem ensureObj_safe : (o : PyObj) → jsonSafe (ensureObj o) = true
  | .mk sr td md da ra => by
    cases td with
    | returns v =>
      rw [ensureObj_toDict_returns sr md da ra v]
      exact ensure_safe v
    | raises =>
      rw [ensureObj_toDict_raises sr md da ra]
      rfl
    | absent =>
      cases md with
      | returns v =>
        rw [ensureObj_modelDump_returns sr PyCap.absent da ra v rfl]
        exact ensure_safe v
      | raises =>
        rw [ensureObj_modelDump_raises sr PyCap.absent da ra rfl]
        rfl
      | absent =>
        cases da with
        | present kvs =>
          rw [ensureObj_dictAttr sr PyCap.absent PyCap.absent ra kvs rfl rfl]
          simp only [jsonSafe]
          exact ensureFilteredKVs_safe kvs
        | absent =>
          cases ra with
          | absent =>
            rw [ensureObj_fallback sr PyCap.absent PyCap.absent rfl rfl]
            rfl
          | present r =>
            cases r with
            | list xs =>
              rw [ensureObj_results_list sr PyCap.absent PyCap.absent xs rfl rfl]
              simp only [jsonSafe]
              exact ensureList_safe xs
            | none => exact ensure_safe PyVal.none
            | bool b => exact ensure_safe (PyVal.bool b)
            | int n => exact ensure_safe (PyVal.int n)
            | float lit => exact ensure_safe (PyVal.float lit)
            | str s => exact ensure_safe (PyVal.str s)
            | tuple xs => exact ensure_safe (PyVal.tuple xs)
            | dict kvs => exact ensure_safe (PyVal.dict kvs)
            | obj o2 => exact ensure_safe (PyVal.obj o2)
      | notCallable =>
        cases da with
        | present kvs =>
          rw [ensureObj_dictAttr sr PyCap.absent PyCap.notCallable ra kvs rfl rfl]
          simp only [jsonSafe]
          exact ensureFilteredKVs_safe kvs
        | absent =>
          cases ra with
          | absent =>
            rw [ensureObj_fallback sr PyCap.absent PyCap.notCallable rfl rfl]
            rfl
          | present r =>
            cases r with
            | list xs =>
              rw [ensureObj_results_list sr PyCap.absent PyCap.notCallable xs rfl rfl]
              simp only [jsonSafe]
              exact ensureList_safe xs
            | none => exact ensure_safe PyVal.none
            | bool b => exact ensure_safe (PyVal.bool b)
            | int n => exact ensure_safe (PyVal.int n)
            | float lit => exact ensure_safe (PyVal.float lit)
            | str s => exact ensure_safe (PyVal.str s)
            | tuple xs => exact ensure_safe (PyVal.tuple xs)
            | dict kvs => exact ensure_safe (PyVal.dict kvs)
            | obj o2 => exact ensure_safe (PyVal.obj o2)
    | notCallable =>
      cases md with
      | returns v =>
        rw [ensureObj_modelDump_returns sr PyCap.notCallable da ra v rfl]
        exact ensure_safe v
      | raises =>
        rw [ensureObj_modelDump_raises sr PyCap.notCallable da ra rfl]
        rfl
      | absent =>
        cases da with
        | present kvs =>
          rw [ensureObj_dictAttr sr PyCap.notCallable PyCap.absent ra kvs rfl rfl]
          simp only [jsonSafe]
          exact ensureFilteredKVs_safe kvs
        | absent =>
          cases ra with
          | absent =>
            rw [ensureObj_fallback sr PyCap.notCallable PyCap.absent rfl rfl]
            rfl
          | present r =>
            cases r with
            | list xs =>
              rw [ensureObj_results_list sr PyCap.notCallable PyCap.absent xs rfl rfl]
              simp only [jsonSafe]
              exact ensureList_safe xs
            | none => exact ensure_safe PyVal.none
            | bool b => exact ensure_safe (PyVal.bool b)
            | int n => exact ensure_safe (PyVal.int n)
            | float lit => exact ensure_safe (PyVal.float lit)
            | str s => exact ensure_safe (PyVal.str s)
            | tuple xs => exact ensure_safe (PyVal.tuple xs)
            | dict kvs => exact ensure_safe (PyVal.dict kvs)
            | obj o2 => exact ensure_safe (PyVal.obj o2)
      | notCallable =>
        cases da with
        | present kvs =>
          rw [ensureObj_dictAttr sr PyCap.notCallable PyCap.notCallable ra kvs rfl rfl]
          simp only [jsonSafe]
          exact ensureFilteredKVs_safe kvs
        | absent =>
          cases ra with
          | absent =>
            rw [ensureObj_fallback sr PyCap.notCallable PyCap.notCallable rfl rfl]
            rfl
          | present r =>
            cases r with
            | list xs =>
              rw [ensureObj_results_list sr PyCap.notCallable PyCap.notCallable xs rfl rfl]
              simp only [jsonSafe]
              exact ensureList_safe xs
            | none => exact ensure_safe PyVal.none
            | bool b => exact ensure_safe (PyVal.bool b)
            | int n => exact ensure_safe (PyVal.int n)
            | float lit => exact ensure_safe (PyVal.float lit)
            | str s => exact ensure_safe (PyVal.str s)
            | tuple xs => exact ensure_safe (PyVal.tuple xs)
            | dict kvs => exact ensure_safe (PyVal.dict kvs)
            | obj o2 => exact ensure_safe (PyVal.obj o2)

end

theorem ensureList_length : (xs : PyList) → (ensureList xs).length = xs.length
  | .nil => rfl
  | .cons x xs => by
    simp only [ensureList, PyList.length, ensureList_length xs]

theorem ensureList_get? : (xs : PyList) → (i : Nat) →
    (ensureList xs).get? i = (xs.get? i).map ensure_serializable
  | .nil, _ => rfl
  | .cons _ _, 0 => rfl
  | .cons _ xs, i + 1 => ensureList_get? xs i

/-- C1: for every acyclic JSON-safe value `v` (null, boolean, number,
string, or list/dict built recursively from JSON-safe values),
`ensure_serializable v = v`; consequently `ensure_serializable` is
idempotent on every input. -/
theorem ensure_serializable_identity_and_idempotent :
    (∀ v : PyVal, jsonSafe v = true → ensure_serializable v = v) ∧
    (∀ x : PyVal,
      ensure_serializable (ensure_serializable x) = ensure_serializable x) :=
  ⟨ensure_id_of_safe, fun x => ensure_id_of_safe _ (ensure_safe x)⟩

/-- Witness for C1 at a concrete JSON-safe dict and a concrete
non-safe object. -/
theorem ensure_serializable_identity_witness :
    jsonSafe sampleSafeVal = true ∧
    ensure_serializable sampleSafeVal = sampleSafeVal ∧
    ensure_serializable (ensure_serializable sampleObjVal)
      = ensure_serializable sampleObjVal :=
  ⟨by decide,
   ensure_serializable_identity_and_idempotent.1 sampleSafeVal (by decide),
   ensure_serializable_identity_and_idempotent.2 sampleObjVal⟩

/-- C6: the Normalizer never surfaces an error; whenever no conversion
capability is recognized (`to_dict`/`model_dump` absent or not
callable, no `__dict__`, no `results`), or the selected extraction
strategy raises (a callable `to_dict` or `model_dump` whose call
raises), the result is the object's string representation `str(o)`. -/
theorem ensure_serializable_fallback_to_str :
    (∀ (sr : String) (td md : PyCap),
      td.noCall = true → md.noCall = true →
      ensure_serializable (.obj (.mk sr td md .absent .absent)) = .str sr) ∧
    (∀ (sr : String) (md : PyCap) (da : PyDictAttr) (ra : PyResultsAttr),
      ensure_serializable (.obj (.mk sr .raises md da ra)) = .str sr) ∧
    (∀ (sr : String) (td : PyCap) (da : PyDictAttr) (ra : PyResultsAttr),
      td.noCall = true →
      ensure_serializable (.obj (.mk sr td .raises da ra)) = .str sr) := by
  refine ⟨fun sr td md h1 h2 => ?_, fun sr md da ra => ?_, fun sr td da ra h => ?_⟩
  · simp only [ensure_serializable]
    exact ensureObj_fallback sr td md h1 h2
  · simp only [ensure_serializable]
    exact ensureObj_toDict_raises sr md da ra
  · simp only [ensure_serializable]
    exact ensureObj_modelDump_raises sr td da ra h

/-- Witness for C6: a capability-free object and an object whose
`to_dict` call raises both normalize to their `str()` text. -/
theorem ensure_serializable_fallback_witness :
    ensure_serializable (.obj (.mk "<Plain>" .absent .notCallable .absent .absent))
      = .str "<Plain>" ∧
    ensure_serializable (.obj (.mk "<Boom>" .raises .absent
        (.present (.cons "x" (.int 1) .nil)) .absent))
      = .str "<Boom>" ∧
    ensure_serializable (.obj (.mk "<Boom2>" .notCallable .raises .absent
        (.present (.int 7)))) = .str "<Boom2>" :=
  ⟨ensure_serializable_fallback_to_str.1 "<Plain>" .absent .notCallable rfl rfl,
   ensure_serializable_fallback_to_str.2.1 "<Boom>" .absent
     (.present (.cons "x" (.int 1) .nil)) .absent,
   ensure_serializable_fallback_to_str.2.2 "<Boom2>" .notCallable .absent
     (.present (.int 7)) rfl⟩

/-- C7 counterexample: a tuple is an ordered, heterogeneous-capable,
non-string sequence, but `ensure_serializable` does not return a
sequence for it — the `isinstance` check covers only `list`, so a tuple
falls through the whole conversion chain and comes back as its string
representation. -/
theorem tuple_not_normalized_as_sequence :
    ensure_serializable (.tuple (.cons (.int 1) (.cons (.int 2) .nil)))
      = .str "(1, 2)" ∧
    (ensure_serializable (.tuple (.cons (.int 1) (.cons (.int 2) .nil)))).isSeq
      = false := by
  constructor
  · decide
  · decide

/-- C7 (amended): for every Python `list` given to the Normalizer the
result is a new list with the Normalizer applied to each element, in the
same order (same length, pointwise normalized); any other sequence
(e.g. a tuple) is not recognized by the basic-type check and becomes its
string representation via the fallback. -/
theorem ensure_serializable_list_pointwise :
    (∀ xs : PyList, ensure_serializable (.list xs) = .list (ensureList xs)) ∧
    (∀ xs : PyList, (ensureList xs).length = xs.length) ∧
    (∀ (xs : PyList) (i : Nat),
      (ensureList xs).get? i = (xs.get? i).map ensure_serializable) ∧
    (∀ xs : PyList, ensure_serializable (.tuple xs) = .str (pyRepr (.tuple xs))) :=
  ⟨fun _ => rfl, ensureList_length, ensureList_get?, fun _ => rfl⟩

theorem foldl_writeErr_spec : (l : List String) → (st : Streams) →
    (l.foldl writeErr st).redirected = st.redirected ∧
    (l.foldl writeErr st).realOut = st.realOut ∧
    (l.foldl writeErr st).realErr = st.realErr ++ l
  | [], st => ⟨rfl, rfl, by simp⟩
  | s :: rest, st => by
    have ih := foldl_writeErr_spec rest (writeErr st s)
    simp only [List.foldl_cons]
    refine ⟨ih.1, ih.2.1, ?_⟩
    rw [ih.2.2]
    simp [writeErr]

theorem foldl_writeOut_redirected : (l : List String) → (st : Streams) →
    st.redirected = true →
    (l.foldl writeOut st).redirected = true ∧
    (l.foldl writeOut st).realOut = st.realOut ∧
    (l.foldl writeOut st).realErr = st.realErr
  | [], _, h => ⟨h, rfl, rfl⟩
  | s :: rest, st, h => by
    have hw : writeOut st s = { st with buffer := st.buffer ++ [s] } := by
      simp [writeOut, h]
    have h2 : (writeOut st s).redirected = true := by rw [hw]; exact h
    have ih := foldl_writeOut_redirected rest (writeOut st s) h2
    simp only [List.foldl_cons]
    refine ⟨ih.1, ih.2.1.trans ?_, ih.2.2.trans ?_⟩
    · rw [hw]
    · rw [hw]

/-- Inside a redirect scope, the target's stdout writes hit only the
buffer and its stderr writes hit the real error stream. -/
theorem runTarget_redirected (t : TargetBehavior) (st : Streams)
    (h : st.redirected = true) :
    (runTarget t st).1.redirected = true ∧
    (runTarget t st).1.realOut = st.realOut ∧
    (runTarget t st).1.realErr = st.realErr ++ t.errWrites ∧
    (runTarget t st).2 = t.outcome := by
  have hOut := foldl_writeOut_redirected t.outWrites st h
  have hErr := foldl_writeErr_spec t.errWrites (t.outWrites.foldl writeOut st)
  refine ⟨?_, ?_, ?_, rfl⟩
  · rw [runTarget]
    exact hErr.1.trans hOut.1
  · rw [runTarget]
    exact hErr.2.1.trans hOut.2.1
  · rw [runTarget]
    rw [hErr.2.2, hOut.2.2]

/-- C3 (amended): for wrappers generated with the
`contextlib.redirect_stdout(io.StringIO())` scope (langchain, crewai,
langgraph, openai adapters), every stdout write of the target during
the call is captured into the discarded buffer and none reaches the
real stdout; stderr is not redirected (the target's stderr writes land
on the real error stream); and `sys.stdout` is restored after the call
on both the normal and the raising path (the outcome passes through the
scope unchanged).  The mcp_agent adapter's wrapper, however, performs
no redirection — see the counterexample. -/
theorem redirect_scope_captures_stdout :
    (∀ (t : TargetBehavior) (st : Streams),
      (redirectScopedCall t st).1.realOut = st.realOut ∧
      (redirectScopedCall t st).1.realErr = st.realErr ++ t.errWrites ∧
      (redirectScopedCall t st).1.redirected = st.redirected ∧
      (redirectScopedCall t st).2 = t.outcome) ∧
    (∀ (schema : InputSchema) (target : List (String × PyVal) → TargetBehavior)
       (args : String → PyVal) (st : Streams),
      (run_tool schema target args st).1.realOut = st.realOut ∧
      (run_tool schema target args st).1.redirected = st.redirected) ∧
    (∀ (schema : InputSchema) (target : List (String × PyVal) → TargetBehavior)
       (args : String → PyVal) (st : Streams),
      (crewai_run_tool schema target args st).1.realOut = st.realOut ∧
      (crewai_run_tool schema target args st).1.redirected = st.redirected) := by
  have base : ∀ (t : TargetBehavior) (st : Streams),
      (redirectScopedCall t st).1.realOut = st.realOut ∧
      (redirectScopedCall t st).1.realErr = st.realErr ++ t.errWrites ∧
      (redirectScopedCall t st).1.redirected = st.redirected ∧
      (redirectScopedCall t st).2 = t.outcome := by
    intro t st
    have h := runTarget_redirected t { st with redirected := true, buffer := [] } rfl
    exact ⟨h.2.1, h.2.2.1, rfl, h.2.2.2⟩
  refine ⟨base, fun schema target args st => ?_, fun schema target args st => ?_⟩
  · exact ⟨(base _ st).1, (base _ st).2.2.1⟩
  · exact ⟨(base _ st).1, (base _ st).2.2.1⟩

/-- C3 counterexample: `run_agent` of the mcp_agent adapter has no
`redirect_stdout` scope, so a target stdout write appears on the real
stdout after the call — the claim is false for that adapter's wrappers. -/
theorem mcp_agent_stdout_not_captured :
    (mcp_run_agent querySchema (fun _ => noisyTarget) (fun _ => .str "hi")
      startStreams).1.realOut = ["oops"] ∧
    startStreams.realOut = [] := ⟨rfl, rfl⟩

/-- C5: when the target's invocation raises, the langchain-style wrapper
(no handler) re-raises the same exception unchanged (propagation
policy), while the mcp_agent wrapper returns the structured payload
`{"status": "error", "message": str(e)}` (report policy); in
particular `RuntimeError("boom")` yields the payload with message
"boom". -/
theorem target_error_policies :
    (∀ (schema : InputSchema) (target : List (String × PyVal) → TargetBehavior)
       (args : String → PyVal) (st : Streams) (e : PyExc),
      (target (buildInputInstance schema args)).outcome = .error e →
      (run_tool schema target args st).2 = .error e) ∧
    (∀ (schema : InputSchema) (agentTask : List (String × PyVal) → TargetBehavior)
       (kwargs : String → PyVal) (st : Streams) (e : PyExc),
      (agentTask (buildInputInstance schema kwargs)).outcome = .error e →
      e ≠ .cancelledError →
      (mcp_run_agent schema agentTask kwargs st).2 = .ok (errorPayload e)) ∧
    errorPayload (.runtimeError "boom")
      = .dict (.cons "status" (.str "error") (.cons "message" (.str "boom") .nil)) := by
  refine ⟨?_, ?_, rfl⟩
  · intro schema target args st e h
    have : (run_tool schema target args st).2
        = (target (buildInputInstance schema args)).outcome := rfl
    rw [this, h]
  · intro schema agentTask kwargs st e h1 h2
    have hr : (runTarget (agentTask (buildInputInstance schema kwargs)) st).2
        = .error e := by
      rw [runTarget]
      exact h1
    simp only [mcp_run_agent]
    rw [hr]
    cases e with
    | cancelledError => exact absurd rfl h2
    | runtimeError m => rfl
    | valueError m => rfl
    | attributeError m => rfl
    | typeError m => rfl
    | other ty m => rfl

/-- Witness for C5 with `RuntimeError("boom")`: the langchain wrapper
raises it, the mcp_agent wrapper reports it. -/
theorem target_error_policies_witness :
    (run_tool querySchema (fun _ => boomTarget) (fun _ => .str "q")
      startStreams).2 = .error (.runtimeError "boom") ∧
    (mcp_run_agent querySchema (fun _ => boomTarget) (fun _ => .str "q")
      startStreams).2
      = .ok (.dict (.cons "status" (.str "error")
          (.cons "message" (.str "boom") .nil))) :=
  ⟨target_error_policies.1 querySchema (fun _ => boomTarget) (fun _ => .str "q")
     startStreams (.runtimeError "boom") rfl,
   target_error_policies.2.1 querySchema (fun _ => boomTarget) (fun _ => .str "q")
     startStreams (.runtimeError "boom") rfl (by decide)⟩

theorem zip_get? : (l1 : List String) → (l2 : List PyVal) → (i : Nat) →
    (a : String) → (b : PyVal) →
    l1.get? i = some a → l2.get? i = some b → (l1.zip l2).get? i = some (a, b)
  | _ :: _, _ :: _, 0, _, _, h1, h2 => by
    cases h1
    cases h2
    rfl
  | _ :: xs, _ :: ys, i + 1, a, b, h1, h2 => zip_get? xs ys i a b h1 h2
  | [], _, i, _, _, h1, _ => by simp at h1
  | _ :: _, [], i, _, _, _, h2 => by simp at h2

/-- C2: the generated wrapper's parameter list is exactly the schema's
field names in declaration order; calling it (by keyword, or positionally
in that same order) builds a structured input instance binding each field
to the supplied value; and the wrapper dispatches the target on exactly
that instance. -/
theorem projected_wrapper_signature :
    (∀ schema : InputSchema,
      (paramsStrGuarded schema).map Prod.fst = schema.map Prod.fst) ∧
    (∀ (schema : InputSchema) (args : String → PyVal) (i : Nat)
       (p : String × FieldInfo),
      schema.get? i = some p →
      (buildInputInstance schema args).get? i = some (p.1, args p.1)) ∧
    (∀ (schema : InputSchema) (vals : List PyVal) (i : Nat)
       (p : String × FieldInfo) (v : PyVal),
      schema.get? i = some p → vals.get? i = some v →
      (buildInputPositional schema vals).get? i = some (p.1, v)) ∧
    (∀ (schema : InputSchema) (target : List (String × PyVal) → TargetBehavior)
       (args : String → PyVal) (st : Streams),
      run_tool schema target args st
        = redirectScopedCall (target (buildInputInstance schema args)) st) := by
  refine ⟨?_, ?_, ?_, fun _ _ _ _ => rfl⟩
  · intro schema
    simp [paramsStrGuarded, List.map_map]
  · intro schema args i p h
    rw [buildInputInstance, List.get?_map, h]
    rfl
  · intro schema vals i p v h1 h2
    rw [buildInputPositional]
    refine zip_get? (schema.map Prod.fst) vals i p.1 v ?_ h2
    rw [List.get?_map, h1]
    rfl

/-- Witness for C2: schema `{a: str, b: int}` with `a="x", b=1` gives
the instance `{a: "x", b: 1}` and parameter names `(a, b)`. -/
theorem projected_wrapper_signature_witness :
    (paramsStrGuarded exampleSchema).map Prod.fst = ["a", "b"] ∧
    (buildInputInstance exampleSchema exampleArgs).get? 0
      = some ("a", .str "x") ∧
    (buildInputInstance exampleSchema exampleArgs).get? 1
      = some ("b", .int 1) ∧
    buildInputInstance exampleSchema exampleArgs
      = [("a", .str "x"), ("b", .int 1)] :=
  ⟨(projected_wrapper_signature.1 exampleSchema).trans rfl,
   projected_wrapper_signature.2.1 exampleSchema exampleArgs 0
     ("a", ⟨some "str"⟩) rfl,
   projected_wrapper_signature.2.1 exampleSchema exampleArgs 1
     ("b", ⟨some "int"⟩) rfl,
   rfl⟩

theorem paramsStrUnguarded_error : (schema : InputSchema) →
    (p : String × FieldInfo) → p ∈ schema → p.2.annotationName = Option.none →
    ∃ e, paramsStrUnguarded schema = Except.error e
  | q :: rest, p, hmem, hnone => by
    simp only [paramsStrUnguarded]
    cases hq : q.2.annotationName with
    | none => exact ⟨_, rfl⟩
    | some n =>
      have hp : p ∈ rest := by
        cases hmem with
        | head => rw [hnone] at hq; cases hq
        | tail _ h => exact h
      obtain ⟨e, he⟩ := paramsStrUnguarded_error rest p hp hnone
      refine ⟨e, ?_⟩
      rw [he]
      rfl

/-- C9 (amended): adapters that guard the annotation with
`hasattr(annotation, '__name__')` (langchain, crewai tool, langgraph,
openai, llamaindex, pydantic, and the auto_mcp openai adapter) project a
field whose declared type has no resolvable name as an `Any` parameter
and construction succeeds; but `create_crewai_agent_adapter` and
`create_crewai_orchestrator_adapter` read `annotation.__name__`
unguarded, so for such a field their construction raises
`AttributeError` instead of succeeding. -/
theorem unresolvable_annotation_projection :
    (∀ (schema : InputSchema) (i : Nat) (p : String × FieldInfo),
      schema.get? i = some p → p.2.annotationName = Option.none →
      (paramsStrGuarded schema).get? i = some (p.1, "Any")) ∧
    (∀ (schema : InputSchema) (p : String × FieldInfo),
      p ∈ schema → p.2.annotationName = Option.none →
      ∃ e, paramsStrUnguarded schema = Except.error e) := by
  refine ⟨?_, paramsStrUnguarded_error⟩
  intro schema i p h hnone
  rw [paramsStrGuarded, List.get?_map, h]
  simp [hnone]

/-- Witness for C9 at the one-field schema whose annotation has no
name. -/
theorem unresolvable_annotation_projection_witness :
    (paramsStrGuarded [("ctx", (⟨Option.none⟩ : FieldInfo))]).get? 0
      = some ("ctx", "Any") ∧
    ∃ e, paramsStrUnguarded [("ctx", (⟨Option.none⟩ : FieldInfo))]
      = Except.error e :=
  ⟨unresolvable_annotation_projection.1 [("ctx", ⟨Option.none⟩)] 0
     ("ctx", ⟨Option.none⟩) rfl rfl,
   unresolvable_annotation_projection.2 [("ctx", ⟨Option.none⟩)]
     ("ctx", ⟨Option.none⟩) (by simp) rfl⟩

/-- C9 counterexample: for the schema `{ctx: <nameless type>}` the
crewai agent adapter's projection raises `AttributeError` at
construction time — construction does not succeed, contradicting the
claim for that adapter (the guarded projection, by contrast, yields
`Any`). -/
theorem crewai_agent_annotation_failure :
    paramsStrUnguarded [("ctx", (⟨Option.none⟩ : FieldInfo))]
      = Except.error (.attributeError "type object has no attribute __name__") ∧
    paramsStrGuarded [("ctx", (⟨Option.none⟩ : FieldInfo))]
      = [("ctx", "Any")] := ⟨rfl, rfl⟩

theorem findMethod_first (c : PyClass) : (l : List String) → (m : String) →
    (a : Bool) → findMethod c l = some (m, a) →
    ∃ i : Nat, l.get? i = some m ∧ exposesCallable c m = true ∧
      (∀ j mj, j < i → l.get? j = some mj → exposesCallable c mj = false) ∧
      ∃ info, c.methods.lookup m = some info ∧ info.callableAttr = true ∧
        a = info.isCoroutine
  | [], m, a, h => by simp [findMethod] at h
  | m0 :: rest, m, a, h => by
    simp only [findMethod] at h
    split at h
    next info hl =>
      split at h
      next hc =>
        cases h
        refine ⟨0, rfl, ?_, ?_, info, hl, hc, rfl⟩
        · simp [exposesCallable, hl, hc]
        · intro j mj hj _
          exact absurd hj (Nat.not_lt_zero j)
      next hc =>
        obtain ⟨i, h1, h2, h3, h4⟩ := findMethod_first c rest m a h
        refine ⟨i + 1, h1, h2, ?_, h4⟩
        intro j mj hj hg
        cases j with
        | zero =>
          cases hg
          simp only [exposesCallable, hl]
          simpa using hc
        | succ j2 =>
          exact h3 j2 mj (Nat.lt_of_succ_lt_succ hj) hg
    next hl =>
      obtain ⟨i, h1, h2, h3, h4⟩ := findMethod_first c rest m a h
      refine ⟨i + 1, h1, h2, ?_, h4⟩
      intro j mj hj hg
      cases j with
      | zero =>
        cases hg
        simp [exposesCallable, hl]
      | succ j2 =>
        exact h3 j2 mj (Nat.lt_of_succ_lt_succ hj) hg

/-- C4: classification of a class picks the first candidate of the
ordered list that the class exposes as a callable attribute (earlier
candidates are not callably exposed), the await flag is read from that
method once at construction; a class exposing only a coroutine `arun`
is classified asynchronous; and every call of the generated class-case
wrapper instantiates the class exactly once (`n` calls perform `n`
instantiations — no caching). -/
theorem openai_classification :
    (∀ (c : PyClass) (m : String) (a : Bool),
      findMethod c candidateMethods = some (m, a) →
      ∃ i : Nat, candidateMethods.get? i = some m ∧
        exposesCallable c m = true ∧
        (∀ j mj, j < i → candidateMethods.get? j = some mj →
          exposesCallable c mj = false) ∧
        ∃ info, c.methods.lookup m = some info ∧ info.callableAttr = true ∧
          a = info.isCoroutine) ∧
    (findMethod sampleArunClass candidateMethods = some ("arun", true) ∧
      convert_to_mcp_tool (.cls sampleArunClass)
        = .ok (.classMethod "arun" true)) ∧
    (∀ (m : String) (n : Nat),
      (openaiCallsEvents m n).count Ev.instantiate = n) := by
  refine ⟨fun c m a h => findMethod_first c candidateMethods m a h,
    ⟨rfl, rfl⟩, fun m => ?_⟩
  intro n
  induction n with
  | zero => rfl
  | succ k ih =>
    simp [openaiCallsEvents, openai_tool_callEvents, List.count_append,
      List.count_cons, ih]

/-- Witness for C4: the first-match property instantiated at the
`arun`-only class, and three calls instantiate three times. -/
theorem openai_classification_witness :
    (∃ i : Nat, candidateMethods.get? i = some "arun" ∧
      exposesCallable sampleArunClass "arun" = true ∧
      (∀ j mj, j < i → candidateMethods.get? j = some mj →
        exposesCallable sampleArunClass mj = false) ∧
      ∃ info, sampleArunClass.methods.lookup "arun" = some info ∧
        info.callableAttr = true ∧ true = info.isCoroutine) ∧
    (openaiCallsEvents "arun" 3).count Ev.instantiate = 3 :=
  ⟨openai_classification.1 sampleArunClass "arun" true (by decide),
   openai_classification.2.2 "arun" 3⟩

theorem probeEvents_no_invoke (c : PyClass) : (l : List String) →
    Ev.invokeTarget ∉ probeEvents c l
  | [] => by simp [probeEvents]
  | m :: rest => by
    have ih := probeEvents_no_invoke c rest
    simp only [probeEvents]
    split
    · split
      · simp
      · simp [ih]
    · simp [ih]

/-- C8: a target with none of the expected candidate methods that is
not itself directly callable makes the constructor raise `ValueError`
at construction time (crewai tool adapter: the single candidate `_run`
is missing; openai adapter: a non-class, non-function object, and also
any class with no callable candidate); construction performs only
reflection on the target, never an invocation; and a successfully
constructed crewai wrapper's call can only surface the target's own
exception, never the constructor's configuration error. -/
theorem construction_time_configuration_errors :
    (∀ t : CrewaiToolInstance, t.runAttr = .absent →
      ∃ msg, (create_crewai_tool_adapter t).1 = .error (.valueError msg)) ∧
    (∀ obj : FrameworkObj, obj.hasNoCandidate = true →
      obj.pythonCallable = false →
      ∃ msg, convert_to_mcp_tool obj = .error (.valueError msg)) ∧
    (∀ c : PyClass, findMethod c candidateMethods = Option.none →
      ∃ msg, convert_to_mcp_tool (.cls c) = .error (.valueError msg)) ∧
    (∀ t : CrewaiToolInstance,
      Ev.invokeTarget ∉ (create_crewai_tool_adapter t).2) ∧
    (∀ obj : FrameworkObj, Ev.invokeTarget ∉ openaiCtorEvents obj) ∧
    (∀ (t : CrewaiToolInstance) (isAsync : Bool) (schema : InputSchema)
       (args : String → PyVal) (st : Streams),
      (create_crewai_tool_adapter t).1 = .ok isAsync →
      ∀ e, (crewai_wrapper_call t schema args st).2 = .error e →
        (t.behavior (buildInputInstance schema args)).outcome = .error e) := by
  refine ⟨?_, ?_, ?_, ?_, ?_, ?_⟩
  · intro t h
    obtain ⟨ra, beh⟩ := t
    cases ra with
    | absent => exact ⟨_, rfl⟩
    | notCallable => cases h
    | callableM a => cases h
  · intro obj h1 h2
    cases obj with
    | cls c => cases h2
    | func a => cases h2
    | other b =>
      cases b with
      | true => cases h2
      | false => exact ⟨_, rfl⟩
  · intro c h
    simp only [convert_to_mcp_tool]
    rw [h]
    exact ⟨_, rfl⟩
  · intro t
    obtain ⟨ra, beh⟩ := t
    cases ra <;> simp [create_crewai_tool_adapter]
  · intro obj
    cases obj with
    | cls c => exact probeEvents_no_invoke c candidateMethods
    | func a => simp [openaiCtorEvents]
    | other b => simp [openaiCtorEvents]
  · intro t isAsync schema args st hok e he
    obtain ⟨ra, beh⟩ := t
    cases ra with
    | absent => cases hok
    | notCallable => cases hok
    | callableM a =>
      have h2 : (crewai_wrapper_call ⟨.callableM a, beh⟩ schema args st).2
          = ((beh (buildInputInstance schema args)).outcome).map
              ensure_serializable := rfl
      rw [h2] at he
      cases ho : (beh (buildInputInstance schema args)).outcome with
      | ok v => rw [ho] at he; cases he
      | error e2 =>
        rw [ho] at he
        cases he
        rfl

/-- Witness for C8 at concrete targets: construction errors for a
`_run`-less tool, a non-class non-function object and a candidate-less
class; no target invocation during construction; and a call-time error
of a successfully constructed wrapper is the target's own exception. -/
theorem construction_time_configuration_errors_witness :
    (∃ msg, (create_crewai_tool_adapter sampleAbsentTool).1
      = .error (.valueError msg)) ∧
    (∃ msg, convert_to_mcp_tool (.other false) = .error (.valueError msg)) ∧
    (∃ msg, convert_to_mcp_tool (.cls ⟨[]⟩) = .error (.valueError msg)) ∧
    Ev.invokeTarget ∉ (create_crewai_tool_adapter sampleBoomTool).2 ∧
    Ev.invokeTarget ∉ openaiCtorEvents (.cls sampleArunClass) ∧
    (sampleBoomTool.behavior (buildInputInstance querySchema exampleArgs)).outcome
      = .error (.runtimeError "boom") :=
  ⟨construction_time_configuration_errors.1 sampleAbsentTool rfl,
   construction_time_configuration_errors.2.1 (.other false) rfl rfl,
   construction_time_configuration_errors.2.2.1 ⟨[]⟩ rfl,
   construction_time_configuration_errors.2.2.2.1 sampleBoomTool,
   construction_time_configuration_errors.2.2.2.2.1 (.cls sampleArunClass),
   construction_time_configuration_errors.2.2.2.2.2 sampleBoomTool false
     querySchema exampleArgs startStreams rfl (.runtimeError "boom") rfl⟩

mutual

theorem ensureH_heap_extends : (fuel : Nat) → (h : Heap) → (v : HVal) →
    (h2 : Heap) → (w : HVal) → ensureH fuel h v = some (h2, w) →
    ∃ r, h2 = h ++ r
  | 0, h, v, h2, w, hyp => by cases hyp
  | fuel + 1, h, .none, h2, w, hyp => by
    cases hyp
    exact ⟨[], by simp⟩
  | fuel + 1, h, .bool b, h2, w, hyp => by
    cases hyp
    exact ⟨[], by simp⟩
  | fuel + 1, h, .int n, h2, w, hyp => by
    cases hyp
    exact ⟨[], by simp⟩
  | fuel + 1, h, .float lit, h2, w, hyp => by
    cases hyp
    exact ⟨[], by simp⟩
  | fuel + 1, h, .str s, h2, w, hyp => by
    cases hyp
    exact ⟨[], by simp⟩
  | fuel + 1, h, .ref a, h2, w, hyp => by
    simp only [ensureH] at hyp
    split at hyp
    next xs hcell =>
      split at hyp
      next h1 ys hvals =>
        cases hyp
        obtain ⟨r, hr⟩ := ensureHVals_heap_extends fuel h xs h1 ys hvals
        exact ⟨r ++ [.listC ys], by rw [hr, List.append_assoc]⟩
      next => cases hyp
    next kvs hcell =>
      split at hyp
      next h1 kvs1 hkvs =>
        cases hyp
        obtain ⟨r, hr⟩ := ensureHKVs_heap_extends fuel h kvs h1 kvs1 hkvs
        exact ⟨r ++ [.dictC kvs1], by rw [hr, List.append_assoc]⟩
      next => cases hyp
    next sr toDict modelDump dictAttr resultsAttr hcell =>
      split at hyp
      next v =>
        exact ensureH_heap_extends fuel h v h2 w hyp
      next =>
        cases hyp
        exact ⟨[], by simp⟩
      next =>
        split at hyp
        next v =>
          exact ensureH_heap_extends fuel h v h2 w hyp
        next =>
          cases hyp
          exact ⟨[], by simp⟩
        next =>
          split at hyp
          next kvs =>
            obtain ⟨r, hr⟩ := ensureH_heap_extends fuel
              (h ++ [.dictC (filterUnderscoreH kvs)]) (.ref h.length) h2 w hyp
            refine ⟨.dictC (filterUnderscoreH kvs) :: r, ?_⟩
            rw [hr, List.append_assoc]
            rfl
          next =>
            split at hyp
            next r =>
              split at hyp
              next a2 =>
                split at hyp
                next xs hcell2 =>
                  split at hyp
                  next h1 ys hvals =>
                    obtain ⟨r1, hr1⟩ := ensureHVals_heap_extends fuel h xs h1 ys hvals
                    have hh : h1 ++ [HCell.listC ys] = h2 :=
                      congrArg Prod.fst (Option.some.inj hyp)
                    refine ⟨r1 ++ [.listC ys], ?_⟩
                    rw [← hh, hr1, List.append_assoc]
                  next => cases hyp
                next hcell2 =>
                  exact ensureH_heap_extends fuel h (.ref a2) h2 w hyp
              next =>
                exact ensureH_heap_extends fuel h r h2 w hyp
            next =>
              cases hyp
              exact ⟨[], by simp⟩
    next hcell => cases hyp

theorem ensureHVals_heap_extends : (fuel : Nat) → (h : Heap) → (xs : List HVal) →
    (h2 : Heap) → (ys : List HVal) → ensureHVals fuel h xs = some (h2, ys) →
    ∃ r, h2 = h ++ r
  | 0, h, [], h2, ys, hyp => by
    cases hyp
    exact ⟨[], by simp⟩
  | fuel + 1, h, [], h2, ys, hyp => by
    cases hyp
    exact ⟨[], by simp⟩
  | 0, h, x :: xs, h2, ys, hyp => by cases hyp
  | fuel + 1, h, x :: xs, h2, ys, hyp => by
    simp only [ensureHVals] at hyp
    split at hyp
    next h1 y hx =>
      split at hyp
      next h3 ys1 hxs =>
        obtain ⟨r1, hr1⟩ := ensureH_heap_extends fuel h x h1 y hx
        obtain ⟨r2, hr2⟩ := ensureHVals_heap_extends fuel h1 xs h3 ys1 hxs
        have hh : h3 = h2 := congrArg Prod.fst (Option.some.inj hyp)
        refine ⟨r1 ++ r2, ?_⟩
        rw [← hh, hr2, hr1, List.append_assoc]
      next => cases hyp
    next => cases hyp

theorem ensureHKVs_heap_extends : (fuel : Nat) → (h : Heap) →
    (kvs : List (String × HVal)) → (h2 : Heap) →
    (kvs1 : List (String × HVal)) → ensureHKVs fuel h kvs = some (h2, kvs1) →
    ∃ r, h2 = h ++ r
  | 0, h, [], h2, kvs1, hyp => by
    cases hyp
    exact ⟨[], by simp⟩
  | fuel + 1, h, [], h2, kvs1, hyp => by
    cases hyp
    exact ⟨[], by simp⟩
  | 0, h, p :: rest, h2, kvs1, hyp => by cases hyp
  | fuel + 1, h, (k, v) :: rest, h2, kvs1, hyp => by
    simp only [ensureHKVs] at hyp
    split at hyp
    next h1 wv hv =>
      split at hyp
      next h3 rest1 hrest =>
        obtain ⟨r1, hr1⟩ := ensureH_heap_extends fuel h v h1 wv hv
        obtain ⟨r2, hr2⟩ := ensureHKVs_heap_extends fuel h1 rest h3 rest1 hrest
        have hh : h3 = h2 := congrArg Prod.fst (Option.some.inj hyp)
        refine ⟨r1 ++ r2, ?_⟩
        rw [← hh, hr2, hr1, List.append_assoc]
      next => cases hyp
    next => cases hyp

end

/-- C10: `ensure_serializable` never mutates its argument.  In the
heap model: normalizing a reference to a dict or list returns a
reference to a freshly allocated container (an address at or past the
old heap's end, in particular not the argument's address), and every
cell of the original heap — the input and all its nested containers —
is unchanged in the final heap. -/
theorem ensure_serializable_no_mutation
    (fuel : Nat) (h h2 : Heap) (a : Nat) (cell : HCell) (w : HVal)
    (hcell : h[a]? = some cell) (hcont : cell.isContainer = true)
    (hrun : ensureH fuel h (.ref a) = some (h2, w)) :
    (∀ (b : Nat) (c : HCell), h[b]? = some c → h2[b]? = some c) ∧
    ∃ a2, w = .ref a2 ∧ h.length ≤ a2 ∧ a2 ≠ a := by
  obtain ⟨r, hr⟩ := ensureH_heap_extends fuel h (.ref a) h2 w hrun
  have ha : a < h.length := by
    by_contra hge
    rw [List.getElem?_eq_none (Nat.le_of_not_lt hge)] at hcell
    cases hcell
  constructor
  · intro b c hb
    have hb2 : b < h.length := by
      by_contra hge
      rw [List.getElem?_eq_none (Nat.le_of_not_lt hge)] at hb
      cases hb
    rw [hr, List.getElem?_append_left hb2]
    exact hb
  · cases fuel with
    | zero => cases hrun
    | succ f =>
      simp only [ensureH] at hrun
      split at hrun
      next xs hcell2 =>
        split at hrun
        next h1 ys hvals =>
          have hpair := Option.some.inj hrun
          have hw : w = .ref h1.length := (congrArg Prod.snd hpair).symm
          obtain ⟨r1, hr1⟩ := ensureHVals_heap_extends f h xs h1 ys hvals
          refine ⟨h1.length, hw, ?_, ?_⟩
          · rw [hr1, List.length_append]
            omega
          · rw [hr1, List.length_append]
            omega
        next => cases hrun
      next kvs hcell2 =>
        split at hrun
        next h1 kvs1 hkvs =>
          have hpair := Option.some.inj hrun
          have hw : w = .ref h1.length := (congrArg Prod.snd hpair).symm
          obtain ⟨r1, hr1⟩ := ensureHKVs_heap_extends f h kvs h1 kvs1 hkvs
          refine ⟨h1.length, hw, ?_, ?_⟩
          · rw [hr1, List.length_append]
            omega
          · rw [hr1, List.length_append]
            omega
        next => cases hrun
      next sr td md da ra hcell2 =>
        rw [hcell] at hcell2
        cases hcell2
        cases hcont
      next hcell2 =>
        rw [hcell] at hcell2
        cases hcell2

/-- Witness for C10 at `sampleHeap`: normalizing the dict at address 0
leaves both original cells unchanged and returns the fresh address 3. -/
theorem ensure_serializable_no_mutation_witness :
    (∀ (b : Nat) (c : HCell), sampleHeap[b]? = some c →
      ((sampleHeap ++ [HCell.listC [HVal.int 3]]
        ++ [HCell.dictC [("k", HVal.ref 2)]])[b]? = some c)) ∧
    ∃ a2, (HVal.ref 3 : HVal) = .ref a2 ∧ sampleHeap.length ≤ a2 ∧ a2 ≠ 0 := by
  have h := ensure_serializable_no_mutation 5 sampleHeap
    (sampleHeap ++ [HCell.listC [HVal.int 3]] ++ [HCell.dictC [("k", HVal.ref 2)]])
    0 (HCell.dictC [("k", HVal.ref 1)]) (HVal.ref 3)
    (by decide) (by decide) (by decide)
  exact h
